import Mathlib

/-!
Verification of the Guidepost job-search pipeline core
(query builder, external search client, normalizer/deduplicator,
match scorer, orchestrator) against its natural-language specification.

The TypeScript sources are shallowly embedded: pure functions become
Lean functions, `async` code interacting with external services is
parametrised by explicit outcome oracles, and JavaScript string
truthiness (`""` is falsy) is modelled explicitly where the source
relies on it.
-/

namespace Guidepost

/-- JS truthiness on an optional string field: `""` is falsy, so
`x || y` treats an empty string like an absent value. -/
def truthyS : Option String → Option String
  | none => none
  | some s => if s = "" then none else some s

/-- Test whether `needle` is a prefix of `hay` (character lists). -/
def hasPrefixL : List Char → List Char → Bool
  | [], _ => true
  | _ :: _, [] => false
  | a :: as, b :: bs => a = b && hasPrefixL as bs

/-- Test whether `needle` occurs contiguously somewhere in `hay`. -/
def hasInfixL (needle : List Char) : List Char → Bool
  | [] => hasPrefixL needle []
  | c :: tl => hasPrefixL needle (c :: tl) || hasInfixL needle tl

/-- JS `String.prototype.includes` (substring occurrence); the empty
needle occurs in every string. -/
def jsIncludes (s t : String) : Bool :=
  hasInfixL t.data s.data

/-- JS `Math.round`: round half towards +infinity, i.e. `⌊x + 1/2⌋`. -/
def jsRound (q : ℚ) : ℤ := ⌊q + 1/2⌋

/-- The scorer's `Math.max(0, Math.min(100, Math.round(s)))`. -/
def clampRound (q : ℚ) : ℤ := max 0 (min 100 (jsRound q))

/-! ## Data model (src/lib/types.ts) -/

/-- Shape `ParsedResumeData` from types.ts. -/
structure ParsedResumeData where
  summary : String
  job_titles : List String
  skills : List String
  years_of_experience : Nat
  education : List String
  certifications : List String
  industries : List String
deriving DecidableEq, Repr

/-- Shape `SearchFilter` from types.ts. Fields `remote_preference` and
`target_seniority` are string unions in TS; modelled as strings. -/
structure SearchFilter where
  id : String
  resume_id : String
  keywords : List String
  location : Option String
  remote_preference : String
  target_seniority : String
  min_salary : Option Int
  max_listing_age_days : Nat
  excluded_companies : List String
deriving DecidableEq, Repr

/-- One entry of `apply_options` on a SerpAPI job result. -/
structure ApplyOption where
  title : String
  link : String
deriving DecidableEq, Repr

/-- Shape `SerpApiJob` from serpapi.ts, with `detected_extensions` fields
inlined as optional fields. -/
structure SerpApiJob where
  title : String
  company_name : String
  location : String
  description : String
  posted_at_ext : Option String
  salary : Option String
  schedule_type : Option String
  work_from_home : Option Bool
  job_id : Option String
  share_link : Option String
  apply_options : List ApplyOption
deriving DecidableEq, Repr

/-- The normalized listing shape produced by `normalizeJob`. -/
structure NormalizedListing where
  resume_id : String
  title : String
  company : String
  location : Option String
  description : Option String
  url : Option String
  source : String
  posted_at : Option String
  is_remote : Bool
  salary_info : Option String
deriving DecidableEq, Repr

/-! ## Query builder (src/lib/search/query-builder.ts) -/

/-- The `seniorityMap` lookup table shared by both versions of
`buildSearchQueries`; a key outside the map yields `undefined`
(modelled as `none`). -/
def seniorityMap : String → Option String
  | "entry" => some "entry level OR junior"
  | "mid" => some "mid level"
  | "senior" => some "senior"
  | _ => none

/-- Function `buildSearchQueries` as checked into query-builder.ts:
titles (up to 4) as queries, a single joined-skills fallback query,
seniority qualifier, then the filter's keywords appended to every query. -/
def buildSearchQueries (parsed : ParsedResumeData) (filters : SearchFilter) :
    List String :=
  let titles := parsed.job_titles.take 4
  let queries :=
    if titles.length = 0 then
      [String.intercalate " " (parsed.skills.take 3)]
    else
      titles
  let seniorityStr : Option String :=
    if filters.target_seniority ≠ "" ∧ filters.target_seniority ≠ "any" then
      seniorityMap filters.target_seniority
    else none
  let result :=
    match seniorityStr with
    | some s => queries.map (fun q => q ++ " " ++ s)
    | none => queries
  if filters.keywords ≠ [] then
    let keywordStr := String.intercalate " " (filters.keywords.take 3)
    result.map (fun q => q ++ " " ++ keywordStr)
  else
    result

namespace V2

/-- The revised `buildSearchQueries` (the variant the unit tests and the
spec describe): individual `"<skill> jobs"` fallback queries, a literal
`"software developer"` ultimate fallback, and no keyword appending. -/
def buildSearchQueries (parsed : ParsedResumeData) (filters : SearchFilter) :
    List String :=
  let titles := parsed.job_titles.take 4
  let queries :=
    if titles.length = 0 then
      let skillQueries := (parsed.skills.take 3).map (fun skill => skill ++ " jobs")
      if skillQueries.length = 0 then ["software developer"] else skillQueries
    else
      titles
  let seniorityStr : Option String :=
    if filters.target_seniority ≠ "" ∧ filters.target_seniority ≠ "any" then
      seniorityMap filters.target_seniority
    else none
  match seniorityStr with
  | some s => queries.map (fun q => q ++ " " ++ s)
  | none => queries

end V2

/-- The search parameters built by `buildSerpApiParams`
(`Record<string, string>` with optional `location`/`chips` keys and the
`api_key` set by the caller). -/
structure SerpParams where
  engine : String
  q : String
  location : Option String
  chips : Option String
  api_key : Option String
deriving DecidableEq, Repr

/-- The `ageMap` chip table: supported day keys to chip strings. -/
def ageChip : Nat → Option String
  | 1 => some "date_posted:today"
  | 3 => some "date_posted:3days"
  | 7 => some "date_posted:week"
  | 14 => some "date_posted:month"
  | 30 => some "date_posted:month"
  | _ => none

/-- Function `buildSerpApiParams` (identical in both versions of the file):
engine, query, truthy location pass-through, and the listing-age chip
found by scanning the sorted keys for the first one ≥ the filter's
`max_listing_age_days`, defaulting to the last key. -/
def buildSerpApiParams (query : String) (filters : SearchFilter) : SerpParams :=
  let chips :=
    if filters.max_listing_age_days ≠ 0 then
      let ages : List Nat := [1, 3, 7, 14, 30]
      let closest := (ages.find? (fun a => filters.max_listing_age_days ≤ a)).getD 30
      ageChip closest
    else
      none
  { engine := "google_jobs"
    q := query
    location := truthyS filters.location
    chips := chips
    api_key := none }

/-- The listing-age bucket as the spec words it: the smallest supported
bucket among 1, 3, 7, 14, 30 days that is ≥ the requested age, falling
back to the largest bucket (30) when none qualifies. -/
def specAgeBucket (d : Nat) : Nat :=
  if d ≤ 1 then 1
  else if d ≤ 3 then 3
  else if d ≤ 7 then 7
  else if d ≤ 14 then 14
  else if d ≤ 30 then 30
  else 30

/-! ## External search client (serpapi.ts) -/

/-- The JSON body of one SerpAPI response: optional `jobs_results`,
optional `error` field, optional `serpapi_pagination.next_page_token`. -/
structure SerpApiResponse where
  jobs_results : Option (List SerpApiJob)
  error : Option String
  next_page_token : Option String
deriving DecidableEq, Repr

/-- Outcome of one `fetch` of the search endpoint: either a non-ok HTTP
status with a body text, or an ok status with a parsed JSON body. -/
inductive FetchOutcome where
  | httpFailure (status : Nat) (body : String)
  | success (resp : SerpApiResponse)
deriving DecidableEq, Repr

/-- The `jobs_results` a given fetch outcome contributes on the success
path (`data.jobs_results || []`); failures contribute nothing. -/
def pageJobs : FetchOutcome → List SerpApiJob
  | .success resp => if resp.error = none then resp.jobs_results.getD [] else []
  | .httpFailure _ _ => []

/-- The (truthy) next-page token carried by a fetch outcome. -/
def pageNextToken : FetchOutcome → Option String
  | .success resp => truthyS resp.next_page_token
  | .httpFailure _ _ => none

/-- Constant `MAX_PAGES` from serpapi.ts. -/
def MAX_PAGES : Nat := 3

/-- The pagination loop body of `searchJobs`. The external service is an
oracle from the (fixed) request params and the request's page token to a
fetch outcome; the function returns the accumulated result together with
the list of page tokens actually requested, in order (`none` = first
request, without a token).

Mirrors: build params / attach token, fetch, throw on HTTP failure,
throw on a response-body `error` field, append `jobs_results || []`,
then break unless the response carries a (truthy) token and this page
was non-empty. -/
def searchLoop (service : SerpParams → Option String → FetchOutcome)
    (params : SerpParams) :
    Nat → Option String → Except String (List SerpApiJob) × List (Option String)
  | 0, _ => (.ok [], [])
  | n + 1, tok =>
    match service params tok with
    | .httpFailure status body =>
        (.error ("SerpAPI request failed: " ++ toString status ++ " - " ++ body),
         [tok])
    | .success resp =>
        match resp.error with
        | some e => (.error ("SerpAPI error: " ++ e), [tok])
        | none =>
            let jobs := resp.jobs_results.getD []
            match truthyS resp.next_page_token with
            | none => (.ok jobs, [tok])
            | some t =>
                if jobs.length = 0 then
                  (.ok jobs, [tok])
                else
                  let rest := searchLoop service params n (some t)
                  (rest.1.map (fun l => jobs ++ l), tok :: rest.2)

/-- The request parameters with the API key attached
(`params.api_key = apiKey`). -/
def serpParamsWithKey (k query : String) (filters : SearchFilter) : SerpParams :=
  { buildSerpApiParams query filters with api_key := some k }

/-- Function `searchJobs` from serpapi.ts: fail if the API key env var is unset
(or empty, which is falsy), otherwise run the pagination loop for up to
`MAX_PAGES` pages starting without a token. -/
def searchJobs (apiKey : Option String)
    (service : SerpParams → Option String → FetchOutcome)
    (query : String) (filters : SearchFilter) :
    Except String (List SerpApiJob) × List (Option String) :=
  match truthyS apiKey with
  | none => (.error "SERPAPI_API_KEY is not configured", [])
  | some k => searchLoop service (serpParamsWithKey k query filters) MAX_PAGES none

/-- Function `normalizeJob` from serpapi.ts. The dedup URL is
`apply_options?.[0]?.link || share_link || null`; `location`,
`description` and `salary` also go through JS truthiness. -/
def normalizeJob (job : SerpApiJob) (resumeId : String) : NormalizedListing :=
  let applyLink :=
    match truthyS (job.apply_options.head?.map (fun a => a.link)) with
    | some l => some l
    | none => truthyS job.share_link
  { resume_id := resumeId
    title := job.title
    company := job.company_name
    location := truthyS (some job.location)
    description := truthyS (some job.description)
    url := applyLink
    source := "google_jobs"
    posted_at := none
    is_remote := job.work_from_home.getD false
    salary_info := truthyS job.salary }

/-! ## Match scorer (src/lib/search/matcher.ts) -/

/-- Shape `MatchResult` from matcher.ts, after rounding/clamping. -/
structure MatchResult where
  score : ℤ
  reasoning : String
deriving DecidableEq, Repr

/-- The fixed fallback reasoning string used by every failure branch. -/
def defaultReasoning : String := "Could not generate match score — defaulted to 50."

/-- Constant `BATCH_SIZE` from matcher.ts. -/
def BATCH_SIZE : Nat := 5

/-- The job fields passed to the scorer. -/
structure JobInput where
  title : String
  company : String
  description : Option String
deriving DecidableEq, Repr

/-- Outcome of the single-candidate Gemini call (after code-fence
stripping and JSON parsing): a parsed `{score, reasoning}` object, or
one of the failure modes the `catch` block absorbs uniformly. -/
inductive SingleOutcome where
  | ok (score : ℚ) (reasoning : String)
  | apiError
  | timeout
  | parseError
deriving DecidableEq, Repr

/-- Function `scoreJobMatch`: on success, clamp-and-round the parsed score; any
exception (API error, 15s timeout, unparseable JSON) is caught and
replaced by the fixed default result. The job/resume/seniority inputs
shape the prompt, which the outcome oracle abstracts. -/
def scoreJobMatch (_job : JobInput) (_resume : ParsedResumeData)
    (_targetSeniority : String) (o : SingleOutcome) : MatchResult :=
  match o with
  | .ok s r => { score := clampRound s, reasoning := r }
  | _ => { score := 50, reasoning := defaultReasoning }

/-- One element of the JSON array a batch call is expected to return. -/
structure RawEntry where
  score : ℚ
  reasoning : String
deriving DecidableEq, Repr

/-- Outcome of one batch Gemini call: a parsed JSON array, parsed JSON
that is not an array, or one of the failure modes the `catch` block
absorbs uniformly. -/
inductive BatchOutcome where
  | okArr (entries : List RawEntry)
  | nonArray
  | apiError
  | timeout
  | parseError
deriving DecidableEq, Repr

/-- The shape-mismatch branch of `scoreBatchSingle`:
`jobs.map((_, i) => clamp(parsed[i]?.score ?? 50))` with
`parsed[i]?.reasoning || default` — present positional entries keep
their clamped score and reasoning, missing ones get the defaults. -/
def mismatchResults (n : Nat) (entries : List RawEntry) : List MatchResult :=
  (List.range n).map (fun i =>
    match entries[i]? with
    | some e =>
        { score := clampRound e.score
          reasoning := if e.reasoning = "" then defaultReasoning else e.reasoning }
    | none => { score := clampRound 50, reasoning := defaultReasoning })

/-- Function `scoreBatchSingle`: one Gemini call for up to `BATCH_SIZE` jobs.
A well-shaped array is clamped elementwise; a non-array or wrong-length
array goes through the positional-default branch; an exception or 30s
timeout yields all defaults. -/
def scoreBatchSingle (jobs : List JobInput) (o : BatchOutcome) : List MatchResult :=
  match o with
  | .okArr entries =>
      if entries.length = jobs.length then
        entries.map (fun e => { score := clampRound e.score, reasoning := e.reasoning })
      else
        mismatchResults jobs.length entries
  | .nonArray => mismatchResults jobs.length []
  | _ => jobs.map (fun _ => { score := 50, reasoning := defaultReasoning })

/-- Observable upstream interaction of `scoreJobBatch`: a single-entry
scoring call, a batch scoring call (with its chunk size), or an
inter-batch delay. -/
inductive CallEvent where
  | singleCall
  | batchCall (n : Nat)
  | delayMs (ms : Nat)
deriving DecidableEq, Repr

/-- The chunking loop of `scoreJobBatch`
(`for i = 0; i < jobs.length; i += BATCH_SIZE`), with the chunk index
`b` driving the per-chunk outcome oracle. `rest` is `jobs.drop i`; the
fuel is an upper bound on the remaining iterations (the caller passes
`jobs.length`). A 1000ms delay follows a chunk iff another chunk
remains (`i + BATCH_SIZE < jobs.length`, i.e. `5 < rest.length`). -/
def batchLoop (oB : Nat → BatchOutcome) :
    Nat → Nat → List JobInput → List MatchResult × List CallEvent
  | 0, _, _ => ([], [])
  | _ + 1, _, [] => ([], [])
  | fuel + 1, b, j :: rest =>
    let chunk := (j :: rest).take BATCH_SIZE
    let results := scoreBatchSingle chunk (oB b)
    let evs :=
      if BATCH_SIZE < (j :: rest).length then
        [CallEvent.batchCall chunk.length, CallEvent.delayMs 1000]
      else
        [CallEvent.batchCall chunk.length]
    let tail := batchLoop oB fuel (b + 1) ((j :: rest).drop BATCH_SIZE)
    (results ++ tail.1, evs ++ tail.2)

/-- Function `scoreJobBatch`: `[]` for empty input with no upstream interaction;
the single-entry path for exactly one job; otherwise the sequential
chunk loop. Returns the match results together with the upstream
interaction trace. -/
def scoreJobBatch (jobs : List JobInput) (resume : ParsedResumeData)
    (targetSeniority : String) (oS : SingleOutcome) (oB : Nat → BatchOutcome) :
    List MatchResult × List CallEvent :=
  if jobs.length = 0 then
    ([], [])
  else if jobs.length = 1 then
    match jobs with
    | [j] => ([scoreJobMatch j resume targetSeniority oS], [CallEvent.singleCall])
    | _ => ([], [])
  else
    batchLoop oB jobs.length 0 jobs

/-- Sizes of the successive chunks the loop slices off a list of `n`
jobs: `min 5 n`, then the chunks of the remaining `n - 5`. -/
def chunkSizes (n : Nat) : List Nat :=
  if _h : n = 0 then [] else min BATCH_SIZE n :: chunkSizes (n - BATCH_SIZE)
termination_by n
decreasing_by simp only [BATCH_SIZE]; omega

/-- The upstream trace a sequential chunked run should produce: one
batch call per chunk, with a 1000ms delay between consecutive chunks. -/
def traceOfChunks : List Nat → List CallEvent
  | [] => []
  | [c] => [CallEvent.batchCall c]
  | c :: c' :: rest =>
      CallEvent.batchCall c :: CallEvent.delayMs 1000 :: traceOfChunks (c' :: rest)

/-! ## Pipeline orchestrator (src/lib/search/execute.ts) -/

/-- The columns of a `resumes` row the orchestrator reads (rows are
pre-filtered to `is_active` with non-null `parsed_data`). -/
structure ResumeRow where
  id : String
  user_id : String
  parsed_data : ParsedResumeData
deriving DecidableEq, Repr

/-- The documented default filter used when a resume has no stored
`search_filters` row. -/
def defaultFilters (rid : String) : SearchFilter :=
  { id := ""
    resume_id := rid
    keywords := []
    location := none
    remote_preference := "any"
    target_seniority := "any"
    min_salary := none
    max_listing_age_days := 7
    excluded_companies := [] }

/-- One accepted candidate (`candidates.push` in execute.ts). -/
structure Candidate where
  normalized : NormalizedListing
  resumeUserId : String
deriving DecidableEq, Repr

/-- The per-resume skip counters of execute.ts. -/
structure Counters where
  skippedExcluded : Nat
  skippedNoUrl : Nat
  skippedDuplicate : Nat
  skippedRemote : Nat
deriving DecidableEq, Repr

/-- Per-resume filtering state: the `existingUrls` set, the accepted
candidates in order, and the skip counters. -/
structure ScanState where
  existing : List String
  candidates : List Candidate
  counters : Counters
deriving DecidableEq, Repr

def initScanState : ScanState :=
  { existing := [], candidates := [],
    counters := ⟨0, 0, 0, 0⟩ }

/-- The per-job body of the filtering loop, in source order:
excluded-company fragment (case-insensitive substring of the company
name), null dedup URL, URL already known, then remote mismatch; a
surviving job's URL is added to `existingUrls` and the candidate
recorded. -/
def stepJob (filters : SearchFilter) (rid uid : String)
    (st : ScanState) (job : SerpApiJob) : ScanState :=
  if filters.excluded_companies.any
      (fun exc => jsIncludes job.company_name.toLower exc.toLower) then
    { st with counters := { st.counters with
        skippedExcluded := st.counters.skippedExcluded + 1 } }
  else
    let normalized := normalizeJob job rid
    match normalized.url with
    | none =>
        { st with counters := { st.counters with
            skippedNoUrl := st.counters.skippedNoUrl + 1 } }
    | some u =>
        if u ∈ st.existing then
          { st with counters := { st.counters with
              skippedDuplicate := st.counters.skippedDuplicate + 1 } }
        else if filters.remote_preference = "remote" ∧ normalized.is_remote = false then
          { st with counters := { st.counters with
              skippedRemote := st.counters.skippedRemote + 1 } }
        else
          { st with
            existing := u :: st.existing
            candidates := st.candidates ++ [{ normalized := normalized, resumeUserId := uid }] }

/-- Processing of one query's results: one batched existence lookup
(`.in("url", allUrls)` against the persisted listings) merged into
`existingUrls`, then the per-job filtering loop. -/
def processQuery (filters : SearchFilter) (persisted : List String)
    (rid uid : String) (st : ScanState) (jobs : List SerpApiJob) : ScanState :=
  let allUrls := jobs.filterMap (fun j => (normalizeJob j rid).url)
  let st1 := { st with
    existing := st.existing ++ persisted.filter (fun u => u ∈ allUrls) }
  jobs.foldl (stepJob filters rid uid) st1

/-- Filtering across all of one resume's queries: `existingUrls` and the
candidate list accumulate across the whole per-resume run. -/
def processQueries (filters : SearchFilter) (persisted : List String)
    (rid uid : String) (jobLists : List (List SerpApiJob)) : ScanState :=
  jobLists.foldl (processQuery filters persisted rid uid) initScanState

/-- Aggregate output of `executeJobSearch` (the returned counts plus
the number of per-query search errors the orchestrator caught and
logged). -/
structure RunResult where
  new_jobs_found : Nat
  resumes_searched : Nat
  serpapiErrors : Nat
deriving DecidableEq, Repr

/-- The per-query body of the orchestrator's loop: run the external
search, and either log the failure (the `catch` arm, counted) or feed
the returned jobs through the filtering pass. -/
def searchQueryStep (apiKey : Option String)
    (service : SerpParams → Option String → FetchOutcome)
    (filters : SearchFilter) (persisted : List String) (rid uid : String)
    (qacc : ScanState × Nat) (q : String) : ScanState × Nat :=
  match (searchJobs apiKey service q filters).1 with
  | .error _ => (qacc.1, qacc.2 + 1)
  | .ok jobs => (processQuery filters persisted rid uid qacc.1 jobs, qacc.2)

/-- Everything the orchestrator does for one resume: load its filters
(or the defaults), build its queries, run each query with per-query
error catching, then batch-score the surviving candidates and insert
them one by one. Returns (insert successes, caught search errors). -/
def runResume (filtersOf : String → Option SearchFilter)
    (apiKey : Option String)
    (service : SerpParams → Option String → FetchOutcome)
    (oS : Nat → SingleOutcome) (oB : Nat → Nat → BatchOutcome)
    (insertOk : NormalizedListing → MatchResult → Bool)
    (persisted : List String) (ir : Nat × ResumeRow) : Nat × Nat :=
  let resume := ir.2
  let filters := (filtersOf resume.id).getD (defaultFilters resume.id)
  let queries := buildSearchQueries resume.parsed_data filters
  let scanned := queries.foldl
    (searchQueryStep apiKey service filters persisted resume.id resume.user_id)
    (initScanState, 0)
  let newJobs :=
    if scanned.1.candidates.length = 0 then 0
    else
      let jobInputs := scanned.1.candidates.map (fun c =>
        { title := c.normalized.title
          company := c.normalized.company
          description := c.normalized.description : JobInput })
      let ts := if filters.target_seniority = "" then "any" else filters.target_seniority
      let matchResults :=
        (scoreJobBatch jobInputs resume.parsed_data ts (oS ir.1) (oB ir.1)).1
      ((scanned.1.candidates.zip matchResults).filter
        (fun cm => insertOk cm.1.normalized cm.2)).length
  (newJobs, scanned.2)

/-- Accumulation of the per-resume outcomes into the run totals. -/
def runAccumStep (filtersOf : String → Option SearchFilter)
    (apiKey : Option String)
    (service : SerpParams → Option String → FetchOutcome)
    (oS : Nat → SingleOutcome) (oB : Nat → Nat → BatchOutcome)
    (insertOk : NormalizedListing → MatchResult → Bool)
    (persisted : List String)
    (acc : Nat × Nat) (ir : Nat × ResumeRow) : Nat × Nat :=
  let res := runResume filtersOf apiKey service oS oB insertOk persisted ir
  (acc.1 + res.1, acc.2 + res.2)

/-- Function `executeJobSearch`: fetch the active resumes (a failure here is
rethrown and aborts the run), then run every resume in order,
accumulating insert successes and caught per-query search errors.
Oracles: `oS`/`oB` index the per-resume scoring outcomes, `insertOk`
decides each insert, `persisted` is the stored set of listing URLs the
batched existence checks consult. -/
def executeJobSearch (resumesFetch : Except String (List ResumeRow))
    (filtersOf : String → Option SearchFilter)
    (apiKey : Option String)
    (service : SerpParams → Option String → FetchOutcome)
    (oS : Nat → SingleOutcome) (oB : Nat → Nat → BatchOutcome)
    (insertOk : NormalizedListing → MatchResult → Bool)
    (persisted : List String) : Except String RunResult :=
  match resumesFetch with
  | .error e => .error e
  | .ok resumes =>
      if resumes.length = 0 then
        .ok { new_jobs_found := 0, resumes_searched := 0, serpapiErrors := 0 }
      else
        let totals := resumes.enum.foldl
          (runAccumStep filtersOf apiKey service oS oB insertOk persisted) (0, 0)
        .ok { new_jobs_found := totals.1
              resumes_searched := resumes.length
              serpapiErrors := totals.2 }

/-- Soundness condition for an accepted candidate: its company matches
no excluded fragment, its dedup URL is present and not persisted, and it
satisfies a hard remote preference. -/
def candOk (filters : SearchFilter) (persisted : List String) (c : Candidate) : Prop :=
  (∀ exc ∈ filters.excluded_companies,
      jsIncludes c.normalized.company.toLower exc.toLower = false) ∧
  (∃ u, c.normalized.url = some u ∧ u ∉ persisted) ∧
  (filters.remote_preference = "remote" → c.normalized.is_remote = true)

/-! ## Concrete fixtures used by witnesses and counterexamples -/

/-- A profile with one job title (mirrors the unit-test fixture). -/
def resumeEngineer : ParsedResumeData :=
  { summary := "Experienced developer"
    job_titles := ["Engineer"]
    skills := ["TypeScript", "React"]
    years_of_experience := 5
    education := ["B.S. Computer Science"]
    certifications := []
    industries := ["Technology"] }

/-- A profile with no titles and four skills (the spec's example). -/
def resumeSkillsOnly : ParsedResumeData :=
  { resumeEngineer with job_titles := [], skills := ["React", "Node", "SQL", "Docker"] }

/-- A profile with neither titles nor skills. -/
def resumeBlank : ParsedResumeData :=
  { resumeEngineer with job_titles := [], skills := [] }

/-- The permissive default filter for resume `r1`. -/
def filtersPlain : SearchFilter := defaultFilters "r1"

/-- Filter `filtersPlain` with two free-text keywords added. -/
def filtersKeywords : SearchFilter := { filtersPlain with keywords := ["remote", "startup"] }

/-- A raw listing with an apply option and a share link. -/
def jobWithApply : SerpApiJob :=
  { title := "Software Engineer"
    company_name := "Acme Corp"
    location := "San Francisco, CA"
    description := "Build cool stuff"
    posted_at_ext := some "3 days ago"
    salary := some "$120K - $150K"
    schedule_type := none
    work_from_home := some false
    job_id := some "abc123"
    share_link := some "https://google.com/jobs/abc123"
    apply_options := [{ title := "Company Site", link := "https://acme.com/apply" }] }

/-- A raw listing whose only link is the share link. -/
def jobShareOnly : SerpApiJob :=
  { jobWithApply with
    apply_options := []
    share_link := some "https://google.com/jobs/share" }

/-- A raw listing with no links at all. -/
def jobNoLinks : SerpApiJob :=
  { jobWithApply with apply_options := [], share_link := none }

/-- A raw listing whose dedup URL is already persisted. -/
def jobOldUrl : SerpApiJob :=
  { jobWithApply with
    title := "Old Role"
    apply_options := [{ title := "Apply", link := "https://old.example/apply" }] }

/-- A resume row for the orchestrator fixtures. -/
def resumeRow1 : ResumeRow :=
  { id := "resume-1", user_id := "user-1", parsed_data := resumeEngineer }

/-- A search service that always answers with an empty page. -/
def svcEmpty : SerpParams → Option String → FetchOutcome :=
  fun _ _ => .success { jobs_results := some [], error := none, next_page_token := none }

/-- A two-page search service: the first request returns one listing and
a next-page token, the second request (with that token) returns one more
listing and no token. -/
def svcTwoPages : SerpParams → Option String → FetchOutcome :=
  fun _ tok =>
    match tok with
    | none => .success { jobs_results := some [jobWithApply], error := none,
                         next_page_token := some "page2" }
    | some "page2" => .success { jobs_results := some [jobShareOnly], error := none,
                                 next_page_token := none }
    | _ => .success { jobs_results := some [], error := none, next_page_token := none }

/-- Six identical scoring inputs (forces a 5 + 1 chunk split). -/
def sixJobs : List JobInput :=
  List.replicate 6 { title := "T", company := "C", description := none }

/-- Seven identical scoring inputs (chunks of 5 and 2). -/
def sevenJobs : List JobInput :=
  List.replicate 7 { title := "T", company := "C", description := none }

/-- Two scoring inputs. -/
def twoJobs : List JobInput :=
  [{ title := "A", company := "X", description := some "desc" },
   { title := "B", company := "Y", description := some "desc" }]

/-! ## Query builder: supporting lemmas -/

/-- The revised query builder never reads the filter's keywords: two
filters differing only in `keywords` produce identical query lists. -/
theorem v2_ignores_keywords (parsed : ParsedResumeData) (f : SearchFilter)
    (kws : List String) :
    V2.buildSearchQueries parsed { f with keywords := kws } =
      V2.buildSearchQueries parsed f := rfl

/-- The revised query builder realizes the behaviour the unit tests and
the spec describe: per-skill `"<skill> jobs"` fallback queries and the
literal `"software developer"` ultimate fallback. -/
theorem v2_fallback_queries :
    V2.buildSearchQueries resumeSkillsOnly filtersPlain =
      ["React jobs", "Node jobs", "SQL jobs"] ∧
    V2.buildSearchQueries resumeBlank filtersPlain = ["software developer"] := by
  exact ⟨rfl, rfl⟩

/-- C1: the claim states that `buildSearchQueries` ignores the filter's
free-text keywords. The checked-in `query-builder.ts` contradicts this
(and its own test `"does not append filter keywords to queries"`): with
keywords `["remote", "startup"]` the query for title `"Engineer"`
becomes `"Engineer remote startup"`, so two filters differing only in
keywords yield different query lists. -/
theorem c1_keywords_are_appended :
    buildSearchQueries resumeEngineer filtersPlain = ["Engineer"] ∧
    buildSearchQueries resumeEngineer filtersKeywords = ["Engineer remote startup"] ∧
    buildSearchQueries resumeEngineer filtersKeywords ≠
      buildSearchQueries resumeEngineer filtersPlain := by
  refine ⟨rfl, rfl, ?_⟩
  decide

/-- C3: the claim (like the unit tests and the spec) expects per-skill
`"<skill> jobs"` fallback queries and a `"software developer"` ultimate
fallback. The checked-in `query-builder.ts` instead joins the top three
skills into one query without the `" jobs"` suffix and, for a blank
profile, emits a single empty-string query. -/
theorem c3_skill_fallback_differs :
    buildSearchQueries resumeSkillsOnly filtersPlain = ["React Node SQL"] ∧
    buildSearchQueries resumeSkillsOnly filtersPlain ≠
      ["React jobs", "Node jobs", "SQL jobs"] ∧
    buildSearchQueries resumeBlank filtersPlain = [""] ∧
    buildSearchQueries resumeBlank filtersPlain ≠ ["software developer"] := by
  refine ⟨rfl, ?_, rfl, ?_⟩ <;> decide

/-- The chip key selected by the source's `find`-over-sorted-keys scan
agrees with the spec-side smallest-qualifying-bucket description. -/
theorem find_age_eq_specAgeBucket (d : Nat) :
    ((([1, 3, 7, 14, 30] : List Nat).find? (fun a => d ≤ a)).getD 30) =
      specAgeBucket d := by
  by_cases h1 : d ≤ 1
  · simp [List.find?, specAgeBucket, h1]
  · by_cases h3 : d ≤ 3
    · simp [List.find?, specAgeBucket, h1, h3]
    · by_cases h7 : d ≤ 7
      · simp [List.find?, specAgeBucket, h1, h3, h7]
      · by_cases h14 : d ≤ 14
        · simp [List.find?, specAgeBucket, h1, h3, h7, h14]
        · by_cases h30 : d ≤ 30
          · simp [List.find?, specAgeBucket, h1, h3, h7, h14, h30]
          · simp [List.find?, specAgeBucket, h1, h3, h7, h14, h30]

/-- C9: for any positive `max_listing_age_days`, the chip is the one of
the smallest supported bucket (1, 3, 7, 14, 30) that is ≥ the requested
age, with the largest bucket as fallback; in particular 5 → week,
20 → month, 1 → today. -/
theorem c9_listing_age_chip (query : String) (f : SearchFilter)
    (h : 1 ≤ f.max_listing_age_days) :
    (buildSerpApiParams query f).chips =
      ageChip (specAgeBucket f.max_listing_age_days) ∧
    (buildSerpApiParams query { f with max_listing_age_days := 5 }).chips =
      some "date_posted:week" ∧
    (buildSerpApiParams query { f with max_listing_age_days := 20 }).chips =
      some "date_posted:month" ∧
    (buildSerpApiParams query { f with max_listing_age_days := 1 }).chips =
      some "date_posted:today" := by
  refine ⟨?_, rfl, rfl, rfl⟩
  have hd : f.max_listing_age_days ≠ 0 := by omega
  simp [buildSerpApiParams, hd, find_age_eq_specAgeBucket]

/-- Witness for C9 at the documented default filter (age 7 → week). -/
theorem c9_listing_age_chip_witness :
    1 ≤ filtersPlain.max_listing_age_days ∧
    ((buildSerpApiParams "Engineer" filtersPlain).chips =
        ageChip (specAgeBucket filtersPlain.max_listing_age_days) ∧
      (buildSerpApiParams "Engineer" { filtersPlain with max_listing_age_days := 5 }).chips =
        some "date_posted:week" ∧
      (buildSerpApiParams "Engineer" { filtersPlain with max_listing_age_days := 20 }).chips =
        some "date_posted:month" ∧
      (buildSerpApiParams "Engineer" { filtersPlain with max_listing_age_days := 1 }).chips =
        some "date_posted:today") :=
  ⟨by decide, c9_listing_age_chip "Engineer" filtersPlain (by decide)⟩

/-! ## Match scorer: clamping and fallback -/

/-- Round-then-clamp evaluation, given the rounded value. -/
theorem clampRound_of_jsRound {q : ℚ} {n : ℤ} (h : jsRound q = n) :
    clampRound q = max 0 (min 100 n) := by
  rw [clampRound, h]

theorem jsRound_150 : jsRound 150 = 150 :=
  Int.floor_eq_iff.mpr ⟨by norm_num, by norm_num⟩

theorem jsRound_neg10 : jsRound (-10) = -10 :=
  Int.floor_eq_iff.mpr ⟨by norm_num, by norm_num⟩

theorem jsRound_727 : jsRound (727/10) = 73 :=
  Int.floor_eq_iff.mpr ⟨by norm_num, by norm_num⟩

theorem jsRound_50 : jsRound 50 = 50 :=
  Int.floor_eq_iff.mpr ⟨by norm_num, by norm_num⟩

/-- The positional default of the shape-mismatch branch is the plain 50. -/
theorem clampRound_50 : clampRound 50 = 50 := by
  rw [clampRound_of_jsRound jsRound_50]
  decide

/-- C6: a successful scoring call is rounded and clamped into [0, 100]
(150 → 100, −10 → 0, 72.7 → 73) with the parsed reasoning kept; an API
error, the 15s timeout, or unparseable JSON each yield exactly score 50
with the fixed reasoning, which contains the `"defaulted"` marker — the
candidate always receives a result. -/
theorem c6_clamp_and_default (job : JobInput) (resume : ParsedResumeData)
    (ts r : String) :
    (scoreJobMatch job resume ts (.ok 150 r)).score = 100 ∧
    (scoreJobMatch job resume ts (.ok (-10) r)).score = 0 ∧
    (scoreJobMatch job resume ts (.ok (727/10) r)).score = 73 ∧
    (∀ s rr, 0 ≤ (scoreJobMatch job resume ts (.ok s rr)).score ∧
        (scoreJobMatch job resume ts (.ok s rr)).score ≤ 100 ∧
        (scoreJobMatch job resume ts (.ok s rr)).reasoning = rr) ∧
    scoreJobMatch job resume ts .apiError = ⟨50, defaultReasoning⟩ ∧
    scoreJobMatch job resume ts .timeout = ⟨50, defaultReasoning⟩ ∧
    scoreJobMatch job resume ts .parseError = ⟨50, defaultReasoning⟩ ∧
    jsIncludes defaultReasoning "defaulted" = true := by
  refine ⟨?_, ?_, ?_, ?_, rfl, rfl, rfl, by decide⟩
  · show clampRound 150 = 100
    rw [clampRound_of_jsRound jsRound_150]
    decide
  · show clampRound (-10) = 0
    rw [clampRound_of_jsRound jsRound_neg10]
    decide
  · show clampRound (727/10) = 73
    rw [clampRound_of_jsRound jsRound_727]
    decide
  · intro s rr
    refine ⟨le_max_left _ _, ?_, rfl⟩
    exact max_le (by norm_num) (min_le_left _ _)

/-! ## Match scorer: batching lemmas -/

theorem clampRound_nonneg (q : ℚ) : 0 ≤ clampRound q := le_max_left _ _

theorem clampRound_le (q : ℚ) : clampRound q ≤ 100 :=
  max_le (by norm_num) (min_le_left _ _)

theorem mismatchResults_length (n : Nat) (entries : List RawEntry) :
    (mismatchResults n entries).length = n := by
  simp [mismatchResults]

theorem mismatchResults_bounds (n : Nat) (entries : List RawEntry) :
    ∀ r ∈ mismatchResults n entries, 0 ≤ r.score ∧ r.score ≤ 100 := by
  intro r hr
  simp only [mismatchResults, List.mem_map] at hr
  obtain ⟨i, _, rfl⟩ := hr
  cases h : entries[i]? with
  | none => simp only [h]; exact ⟨clampRound_nonneg _, clampRound_le _⟩
  | some e => simp only [h]; exact ⟨clampRound_nonneg _, clampRound_le _⟩

/-- Every branch of one batch call returns exactly one result per job. -/
theorem scoreBatchSingle_length (jobs : List JobInput) (o : BatchOutcome) :
    (scoreBatchSingle jobs o).length = jobs.length := by
  cases o with
  | okArr entries =>
      by_cases h : entries.length = jobs.length
      · simp [scoreBatchSingle, h]
      · simp [scoreBatchSingle, h, mismatchResults_length]
  | nonArray => simp [scoreBatchSingle, mismatchResults_length]
  | apiError => simp [scoreBatchSingle]
  | timeout => simp [scoreBatchSingle]
  | parseError => simp [scoreBatchSingle]

/-- Every branch of one batch call yields scores in [0, 100]. -/
theorem scoreBatchSingle_bounds (jobs : List JobInput) (o : BatchOutcome) :
    ∀ r ∈ scoreBatchSingle jobs o, 0 ≤ r.score ∧ r.score ≤ 100 := by
  intro r hr
  cases o with
  | okArr entries =>
      by_cases h : entries.length = jobs.length
      · simp only [scoreBatchSingle, if_pos h, List.mem_map] at hr
        obtain ⟨e, _, rfl⟩ := hr
        exact ⟨clampRound_nonneg _, clampRound_le _⟩
      · simp only [scoreBatchSingle, if_neg h] at hr
        exact mismatchResults_bounds _ _ r hr
  | nonArray =>
      simp only [scoreBatchSingle] at hr
      exact mismatchResults_bounds _ _ r hr
  | apiError =>
      simp only [scoreBatchSingle, List.mem_map] at hr
      obtain ⟨_, _, rfl⟩ := hr
      exact ⟨by norm_num, by norm_num⟩
  | timeout =>
      simp only [scoreBatchSingle, List.mem_map] at hr
      obtain ⟨_, _, rfl⟩ := hr
      exact ⟨by norm_num, by norm_num⟩
  | parseError =>
      simp only [scoreBatchSingle, List.mem_map] at hr
      obtain ⟨_, _, rfl⟩ := hr
      exact ⟨by norm_num, by norm_num⟩

theorem batchLoop_nil (oB : Nat → BatchOutcome) (fuel b : Nat) :
    batchLoop oB fuel b [] = ([], []) := by
  cases fuel <;> rfl

/-- The chunk loop returns one result per remaining job. -/
theorem batchLoop_length (oB : Nat → BatchOutcome) :
    ∀ (fuel b : Nat) (rest : List JobInput), rest.length ≤ fuel →
      (batchLoop oB fuel b rest).1.length = rest.length := by
  intro fuel
  induction fuel with
  | zero =>
      intro b rest h
      have : rest = [] := List.eq_nil_of_length_eq_zero (Nat.le_zero.mp h)
      subst this
      rfl
  | succ fuel ih =>
      intro b rest h
      cases rest with
      | nil => simp [batchLoop]
      | cons j tl =>
          simp only [batchLoop, List.length_append, scoreBatchSingle_length]
          rw [ih (b + 1) ((j :: tl).drop BATCH_SIZE)
              (by simp only [List.length_drop, List.length_cons, BATCH_SIZE]
                  simp only [List.length_cons] at h
                  omega)]
          simp only [List.length_take, List.length_drop, BATCH_SIZE]
          simp only [List.length_cons] at h ⊢
          omega

/-- The chunk loop yields scores in [0, 100]. -/
theorem batchLoop_bounds (oB : Nat → BatchOutcome) :
    ∀ (fuel b : Nat) (rest : List JobInput),
      ∀ r ∈ (batchLoop oB fuel b rest).1, 0 ≤ r.score ∧ r.score ≤ 100 := by
  intro fuel
  induction fuel with
  | zero => intro b rest r hr; simp [batchLoop] at hr
  | succ fuel ih =>
      intro b rest r hr
      cases rest with
      | nil => simp [batchLoop] at hr
      | cons j tl =>
          simp only [batchLoop, List.mem_append] at hr
          rcases hr with hr | hr
          · exact scoreBatchSingle_bounds _ _ r hr
          · exact ih (b + 1) ((j :: tl).drop BATCH_SIZE) r hr

theorem chunkSizes_zero : chunkSizes 0 = [] := by
  rw [chunkSizes]
  simp

theorem chunkSizes_pos (n : Nat) (h : n ≠ 0) :
    chunkSizes n = min BATCH_SIZE n :: chunkSizes (n - BATCH_SIZE) := by
  rw [chunkSizes]
  simp [h]

/-- The chunk loop's upstream trace: one batch call per chunk with a
1000ms delay between consecutive chunks. -/
theorem batchLoop_trace (oB : Nat → BatchOutcome) :
    ∀ (fuel b : Nat) (rest : List JobInput), rest.length ≤ fuel →
      (batchLoop oB fuel b rest).2 = traceOfChunks (chunkSizes rest.length) := by
  intro fuel
  induction fuel with
  | zero =>
      intro b rest h
      have : rest = [] := List.eq_nil_of_length_eq_zero (Nat.le_zero.mp h)
      subst this
      simp [batchLoop, chunkSizes_zero, traceOfChunks]
  | succ fuel ih =>
      intro b rest h
      cases rest with
      | nil => simp [batchLoop, chunkSizes_zero, traceOfChunks]
      | cons j tl =>
          have hlen : (j :: tl).length ≠ 0 := by simp
          rw [chunkSizes_pos _ hlen]
          by_cases h5 : BATCH_SIZE < (j :: tl).length
          · have hdrop : ((j :: tl).drop BATCH_SIZE).length = (j :: tl).length - BATCH_SIZE := by
              simp [List.length_drop]
            have hrest : (j :: tl).length - BATCH_SIZE ≠ 0 := by omega
            simp only [batchLoop, if_pos h5]
            rw [ih (b + 1) ((j :: tl).drop BATCH_SIZE)
                (by simp only [List.length_drop, List.length_cons, BATCH_SIZE]
                    simp only [List.length_cons] at h
                    omega)]
            rw [hdrop, chunkSizes_pos _ hrest, traceOfChunks]
            rw [← chunkSizes_pos _ hrest]
            simp [List.length_take]
          · simp only [batchLoop, if_neg h5]
            have hdrop : (j :: tl).drop BATCH_SIZE = [] := by
              apply List.eq_nil_of_length_eq_zero
              simp only [List.length_drop]
              omega
            rw [hdrop, batchLoop_nil]
            have : (j :: tl).length - BATCH_SIZE = 0 := by omega
            rw [this, chunkSizes_zero]
            simp [traceOfChunks, List.length_take]

/-- A residual chunk of one job exists whenever `n % 5 = 1` (and there
is more than one job): the final chunk of the split has size 1. -/
theorem chunkSizes_residual :
    ∀ n, n % 5 = 1 → 2 ≤ n → (chunkSizes n).getLast? = some 1 := by
  intro n
  induction n using Nat.strong_induction_on with
  | _ n ih =>
      intro h5 h2
      have h6 : 6 ≤ n := by omega
      rw [chunkSizes_pos _ (by omega)]
      by_cases hn : n - BATCH_SIZE = 1
      · have h10 : 1 - BATCH_SIZE = 0 := by simp [BATCH_SIZE]
        rw [hn, chunkSizes_pos 1 (by omega), h10, chunkSizes_zero,
          List.getLast?_cons_cons]
        simp [BATCH_SIZE]
      · have hrec : (chunkSizes (n - BATCH_SIZE)).getLast? = some 1 := by
          refine ih (n - BATCH_SIZE) ?_ ?_ ?_ <;> simp only [BATCH_SIZE] at hn ⊢ <;> omega
        cases hcs : chunkSizes (n - BATCH_SIZE) with
        | nil =>
            rw [chunkSizes_pos _ (by simp only [BATCH_SIZE]; omega)] at hcs
            exact absurd hcs (by simp)
        | cons c cs =>
            rw [hcs] at hrec
            rw [List.getLast?_cons_cons]
            exact hrec

/-- C7 (amended): empty input produces no results and no upstream
interaction; a single candidate goes through the single-entry path; two
or more candidates are split into chunks of 5 processed sequentially,
one batch call per chunk with a 1000ms delay between consecutive
chunks — and a single residual candidate left after chunking is scored
via a one-element batch call (the trace never contains the single-entry
call), not via the single-entry path. -/
theorem c7_batch_dispatch (jobs : List JobInput) (resume : ParsedResumeData)
    (ts : String) (oS : SingleOutcome) (oB : Nat → BatchOutcome) :
    (jobs.length = 0 → scoreJobBatch jobs resume ts oS oB = ([], [])) ∧
    (jobs.length = 1 →
        (scoreJobBatch jobs resume ts oS oB).2 = [CallEvent.singleCall]) ∧
    (2 ≤ jobs.length →
        (scoreJobBatch jobs resume ts oS oB).2 = traceOfChunks (chunkSizes jobs.length) ∧
        CallEvent.singleCall ∉ (scoreJobBatch jobs resume ts oS oB).2 ∧
        (jobs.length % 5 = 1 → (chunkSizes jobs.length).getLast? = some 1)) := by
  refine ⟨?_, ?_, ?_⟩
  · intro h
    have : jobs = [] := List.eq_nil_of_length_eq_zero h
    subst this
    rfl
  · intro h
    obtain ⟨j, rfl⟩ := List.length_eq_one.mp h
    rfl
  · intro h2
    have h0 : ¬jobs.length = 0 := by omega
    have h1 : ¬jobs.length = 1 := by omega
    have htr : (scoreJobBatch jobs resume ts oS oB).2 =
        traceOfChunks (chunkSizes jobs.length) := by
      simp only [scoreJobBatch, if_neg h0, if_neg h1]
      exact batchLoop_trace oB jobs.length 0 jobs le_rfl
    refine ⟨htr, ?_, fun h5 => chunkSizes_residual _ h5 h2⟩
    rw [htr]
    have : ∀ cs : List Nat, CallEvent.singleCall ∉ traceOfChunks cs := by
      intro cs
      induction cs with
      | nil => simp [traceOfChunks]
      | cons c cs ihc =>
          cases cs with
          | nil => simp [traceOfChunks]
          | cons c' cs' => simp [traceOfChunks]; exact ihc
    exact this _

/-- Witness for C7 at a 7-candidate input (chunks of 5 and 2). -/
theorem c7_batch_dispatch_witness :
    (sevenJobs.length = 0 →
        scoreJobBatch sevenJobs resumeEngineer "any" .apiError (fun _ => .apiError) =
          ([], [])) ∧
    (sevenJobs.length = 1 →
        (scoreJobBatch sevenJobs resumeEngineer "any" .apiError (fun _ => .apiError)).2 =
          [CallEvent.singleCall]) ∧
    (2 ≤ sevenJobs.length →
        (scoreJobBatch sevenJobs resumeEngineer "any" .apiError (fun _ => .apiError)).2 =
          traceOfChunks (chunkSizes sevenJobs.length) ∧
        CallEvent.singleCall ∉
          (scoreJobBatch sevenJobs resumeEngineer "any" .apiError (fun _ => .apiError)).2 ∧
        (sevenJobs.length % 5 = 1 → (chunkSizes sevenJobs.length).getLast? = some 1)) :=
  c7_batch_dispatch sevenJobs resumeEngineer "any" .apiError (fun _ => .apiError)

/-- C7 counterexample to the claim as stated: with 6 candidates the
residual single candidate is dispatched as a one-element *batch* call
(`batchCall 1`), and the single-entry path is never used. -/
theorem c7_residual_is_batch_call :
    (scoreJobBatch sixJobs resumeEngineer "any" .apiError (fun _ => .apiError)).2 =
      [CallEvent.batchCall 5, CallEvent.delayMs 1000, CallEvent.batchCall 1] ∧
    CallEvent.singleCall ∉
      (scoreJobBatch sixJobs resumeEngineer "any" .apiError (fun _ => .apiError)).2 := by
  refine ⟨rfl, ?_⟩
  decide

/-- C10: for every input and every upstream outcome — success, API
error, timeout, malformed JSON, or a response array of the wrong
length — the batch scorer returns exactly one result per input job, and
every returned score is an integer in [0, 100]; in the wrong-length
case, present positional entries keep their clamped score and missing
ones default to 50. -/
theorem c10_positional_pairing (jobs : List JobInput) (resume : ParsedResumeData)
    (ts : String) (oS : SingleOutcome) (oB : Nat → BatchOutcome)
    (h : jobs ≠ []) :
    ((scoreJobBatch jobs resume ts oS oB).1.length = jobs.length ∧
      ∀ r ∈ (scoreJobBatch jobs resume ts oS oB).1,
        0 ≤ r.score ∧ r.score ≤ 100) ∧
    (∀ entries : List RawEntry, entries.length ≠ jobs.length →
        ∀ i, i < jobs.length →
          (scoreBatchSingle jobs (BatchOutcome.okArr entries))[i]? =
            some (match entries[i]? with
              | some e =>
                  { score := clampRound e.score
                    reasoning :=
                      if e.reasoning = "" then defaultReasoning else e.reasoning }
              | none => { score := clampRound 50, reasoning := defaultReasoning })) := by
  constructor
  · by_cases h1 : jobs.length = 1
    · obtain ⟨j, rfl⟩ := List.length_eq_one.mp h1
      constructor
      · rfl
      · intro r hr
        simp only [scoreJobBatch] at hr
        norm_num at hr
        subst hr
        cases oS with
        | ok s rr => exact ⟨clampRound_nonneg _, clampRound_le _⟩
        | apiError => exact ⟨by norm_num [scoreJobMatch], by norm_num [scoreJobMatch]⟩
        | timeout => exact ⟨by norm_num [scoreJobMatch], by norm_num [scoreJobMatch]⟩
        | parseError => exact ⟨by norm_num [scoreJobMatch], by norm_num [scoreJobMatch]⟩
    · have h0 : ¬jobs.length = 0 :=
        fun hl => h (List.eq_nil_of_length_eq_zero hl)
      constructor
      · simp only [scoreJobBatch, if_neg h0, if_neg h1]
        exact batchLoop_length oB jobs.length 0 jobs le_rfl
      · intro r hr
        simp only [scoreJobBatch, if_neg h0, if_neg h1] at hr
        exact batchLoop_bounds oB jobs.length 0 jobs r hr
  · intro entries hlen i hi
    simp only [scoreBatchSingle, if_neg hlen, mismatchResults]
    rw [List.getElem?_map]
    rw [List.getElem?_range hi]
    rfl

/-- Witness for C10 at a concrete two-candidate input. -/
theorem c10_positional_pairing_witness :
    twoJobs ≠ [] ∧
    (((scoreJobBatch twoJobs resumeEngineer "any" .apiError (fun _ => .apiError)).1.length =
        twoJobs.length ∧
      ∀ r ∈ (scoreJobBatch twoJobs resumeEngineer "any" .apiError (fun _ => .apiError)).1,
        0 ≤ r.score ∧ r.score ≤ 100) ∧
    (∀ entries : List RawEntry, entries.length ≠ twoJobs.length →
        ∀ i, i < twoJobs.length →
          (scoreBatchSingle twoJobs (BatchOutcome.okArr entries))[i]? =
            some (match entries[i]? with
              | some e =>
                  { score := clampRound e.score
                    reasoning :=
                      if e.reasoning = "" then defaultReasoning else e.reasoning }
              | none => { score := clampRound 50, reasoning := defaultReasoning }))) :=
  ⟨by decide, c10_positional_pairing twoJobs resumeEngineer "any" .apiError
    (fun _ => .apiError) (by decide)⟩

/-! ## Normalizer/deduplicator: filtering invariants -/

theorem normalizeJob_company (job : SerpApiJob) (rid : String) :
    (normalizeJob job rid).company = job.company_name := rfl

/-- One step of the filtering loop either leaves the accepted state
unchanged (a skip) or accepts the job after passing every check. -/
theorem stepJob_cases (filters : SearchFilter) (rid uid : String)
    (st : ScanState) (job : SerpApiJob) :
    ((stepJob filters rid uid st job).existing = st.existing ∧
      (stepJob filters rid uid st job).candidates = st.candidates) ∨
    (∃ u, (normalizeJob job rid).url = some u ∧ u ∉ st.existing ∧
      filters.excluded_companies.any
        (fun exc => jsIncludes job.company_name.toLower exc.toLower) = false ∧
      ¬(filters.remote_preference = "remote" ∧
          (normalizeJob job rid).is_remote = false) ∧
      (stepJob filters rid uid st job).existing = u :: st.existing ∧
      (stepJob filters rid uid st job).candidates =
        st.candidates ++ [{ normalized := normalizeJob job rid, resumeUserId := uid }]) := by
  by_cases hexc : filters.excluded_companies.any
      (fun exc => jsIncludes job.company_name.toLower exc.toLower) = true
  · left
    simp [stepJob, hexc]
  · cases hurl : (normalizeJob job rid).url with
    | none => left; simp [stepJob, hexc, hurl]
    | some u =>
        by_cases hmem : u ∈ st.existing
        · left; simp [stepJob, hexc, hurl, hmem]
        · by_cases hrem : filters.remote_preference = "remote" ∧
              (normalizeJob job rid).is_remote = false
          · left; simp [stepJob, hexc, hurl, hmem, hrem]
          · right
            refine ⟨u, rfl, hmem, by simpa using hexc, hrem, ?_, ?_⟩ <;>
              simp [stepJob, hexc, hurl, hmem, hrem]

/-- Invariant preservation for the per-job filtering loop over one
query's job list: accepted candidates are sound, their URLs are in the
known-URL set, no URL is accepted twice, and the known-URL set only
grows. `allJobs` is the full job list of the query (whose dedup URLs
the batched existence check consulted). -/
theorem foldl_stepJob_sound (filters : SearchFilter) (persisted : List String)
    (rid uid : String) (allJobs : List SerpApiJob) :
    ∀ (jobs : List SerpApiJob) (st : ScanState),
      (∀ j ∈ jobs, j ∈ allJobs) →
      (∀ u ∈ persisted,
          u ∈ allJobs.filterMap (fun j => (normalizeJob j rid).url) →
          u ∈ st.existing) →
      (∀ c ∈ st.candidates, candOk filters persisted c) →
      (∀ c ∈ st.candidates, ∃ u, c.normalized.url = some u ∧ u ∈ st.existing) →
      (st.candidates.map (fun c => c.normalized.url)).Nodup →
      ((∀ c ∈ (jobs.foldl (stepJob filters rid uid) st).candidates,
          candOk filters persisted c) ∧
        (∀ c ∈ (jobs.foldl (stepJob filters rid uid) st).candidates,
          ∃ u, c.normalized.url = some u ∧
            u ∈ (jobs.foldl (stepJob filters rid uid) st).existing) ∧
        ((jobs.foldl (stepJob filters rid uid) st).candidates.map
          (fun c => c.normalized.url)).Nodup ∧
        (∀ u ∈ st.existing, u ∈ (jobs.foldl (stepJob filters rid uid) st).existing)) := by
  intro jobs
  induction jobs with
  | nil =>
      intro st _ _ hc he hnd
      exact ⟨hc, he, hnd, fun u hu => hu⟩
  | cons job jobs ihj =>
      intro st hsub hper hc he hnd
      simp only [List.foldl_cons]
      rcases stepJob_cases filters rid uid st job with
        ⟨hex, hca⟩ | ⟨u, hurl, hmem, hexc, hrem, hex, hca⟩
      · have H := ihj (stepJob filters rid uid st job)
          (fun j hj => hsub j (List.mem_cons_of_mem _ hj))
          (fun v hv hall => hex ▸ hper v hv hall)
          (fun c hcm => hc c (hca ▸ hcm))
          (fun c hcm => by
            obtain ⟨v, hv1, hv2⟩ := he c (hca ▸ hcm)
            exact ⟨v, hv1, hex ▸ hv2⟩)
          (by rw [hca]; exact hnd)
        exact ⟨H.1, H.2.1, H.2.2.1,
          fun u hu => H.2.2.2 u (by rw [hex]; exact hu)⟩
      · -- the job was accepted
        have hjob : job ∈ allJobs := hsub job (List.mem_cons_self _ _)
        have huall : u ∈ allJobs.filterMap (fun j => (normalizeJob j rid).url) :=
          List.mem_filterMap.mpr ⟨job, hjob, hurl⟩
        have hunp : u ∉ persisted := fun hup => hmem (hper u hup huall)
        have hcnew : candOk filters persisted
            { normalized := normalizeJob job rid, resumeUserId := uid } := by
          refine ⟨?_, ⟨u, hurl, hunp⟩, ?_⟩
          · intro exc hexcm
            have := List.any_eq_false.mp hexc exc hexcm
            simpa [normalizeJob_company] using this
          · intro hprf
            rcases Bool.eq_false_or_eq_true (normalizeJob job rid).is_remote with ht | hf
            · exact ht
            · exact absurd ⟨hprf, hf⟩ hrem
        have H := ihj (stepJob filters rid uid st job)
          (fun j hj => hsub j (List.mem_cons_of_mem _ hj))
          (fun v hv hall => by
            rw [hex]
            exact List.mem_cons_of_mem _ (hper v hv hall))
          (fun c hcm => by
            rw [hca] at hcm
            rcases List.mem_append.mp hcm with hold | hnew
            · exact hc c hold
            · rw [List.mem_singleton.mp hnew]
              exact hcnew)
          (fun c hcm => by
            rw [hca] at hcm
            rcases List.mem_append.mp hcm with hold | hnew
            · obtain ⟨v, hv1, hv2⟩ := he c hold
              exact ⟨v, hv1, by rw [hex]; exact List.mem_cons_of_mem _ hv2⟩
            · rw [List.mem_singleton.mp hnew]
              exact ⟨u, hurl, by rw [hex]; exact List.mem_cons_self _ _⟩)
          (by
            rw [hca, List.map_append]
            refine List.Nodup.append hnd (by simp) ?_
            intro x hx hy
            simp only [List.map_cons, List.map_nil, List.mem_singleton] at hy
            subst hy
            simp only [List.mem_map] at hx
            obtain ⟨c, hcm, hcu⟩ := hx
            obtain ⟨v, hv1, hv2⟩ := he c hcm
            rw [hv1, hurl] at hcu
            exact hmem (by rwa [Option.some_inj.mp hcu] at hv2))
        exact ⟨H.1, H.2.1, H.2.2.1,
          fun v hv => H.2.2.2 v (by rw [hex]; exact List.mem_cons_of_mem _ hv)⟩

/-- Invariant preservation for one whole query, including the batched
persisted-URL existence check. -/
theorem processQuery_sound (filters : SearchFilter) (persisted : List String)
    (rid uid : String) (st : ScanState) (jobs : List SerpApiJob)
    (hc : ∀ c ∈ st.candidates, candOk filters persisted c)
    (he : ∀ c ∈ st.candidates, ∃ u, c.normalized.url = some u ∧ u ∈ st.existing)
    (hnd : (st.candidates.map (fun c => c.normalized.url)).Nodup) :
    ((∀ c ∈ (processQuery filters persisted rid uid st jobs).candidates,
        candOk filters persisted c) ∧
      (∀ c ∈ (processQuery filters persisted rid uid st jobs).candidates,
        ∃ u, c.normalized.url = some u ∧
          u ∈ (processQuery filters persisted rid uid st jobs).existing) ∧
      ((processQuery filters persisted rid uid st jobs).candidates.map
        (fun c => c.normalized.url)).Nodup ∧
      (∀ u ∈ st.existing,
        u ∈ (processQuery filters persisted rid uid st jobs).existing)) := by
  have hmain := foldl_stepJob_sound filters persisted rid uid jobs jobs
    { st with existing := st.existing ++
        persisted.filter (fun u => u ∈ jobs.filterMap (fun j => (normalizeJob j rid).url)) }
    (fun j hj => hj)
    (fun u hu hall => by
      refine List.mem_append_right _ ?_
      exact List.mem_filter.mpr ⟨hu, by simpa using hall⟩)
    hc
    (fun c hcm => by
      obtain ⟨v, hv1, hv2⟩ := he c hcm
      exact ⟨v, hv1, List.mem_append_left _ hv2⟩)
    hnd
  refine ⟨hmain.1, hmain.2.1, hmain.2.2.1, fun u hu => ?_⟩
  exact hmain.2.2.2 u (List.mem_append_left _ hu)

/-- C5's invariants for the accumulated per-resume filtering state. -/
theorem processQueries_fold_sound (filters : SearchFilter) (persisted : List String)
    (rid uid : String) :
    ∀ (jls : List (List SerpApiJob)) (st : ScanState),
      (∀ c ∈ st.candidates, candOk filters persisted c) →
      (∀ c ∈ st.candidates, ∃ u, c.normalized.url = some u ∧ u ∈ st.existing) →
      (st.candidates.map (fun c => c.normalized.url)).Nodup →
      ((∀ c ∈ (jls.foldl (processQuery filters persisted rid uid) st).candidates,
          candOk filters persisted c) ∧
        (∀ c ∈ (jls.foldl (processQuery filters persisted rid uid) st).candidates,
          ∃ u, c.normalized.url = some u ∧
            u ∈ (jls.foldl (processQuery filters persisted rid uid) st).existing) ∧
        ((jls.foldl (processQuery filters persisted rid uid) st).candidates.map
          (fun c => c.normalized.url)).Nodup) := by
  intro jls
  induction jls with
  | nil => intro st hc he hnd; exact ⟨hc, he, hnd⟩
  | cons jobs jls ihq =>
      intro st hc he hnd
      simp only [List.foldl_cons]
      have hq := processQuery_sound filters persisted rid uid st jobs hc he hnd
      exact ihq (processQuery filters persisted rid uid st jobs) hq.1 hq.2.1 hq.2.2.1

/-- The accumulated candidate list of one resume's run is sound. -/
theorem processQueries_sound (filters : SearchFilter) (persisted : List String)
    (rid uid : String) (jls : List (List SerpApiJob)) :
    (∀ c ∈ (processQueries filters persisted rid uid jls).candidates,
        candOk filters persisted c) ∧
    ((processQueries filters persisted rid uid jls).candidates.map
      (fun c => c.normalized.url)).Nodup := by
  have h := processQueries_fold_sound filters persisted rid uid jls initScanState
    (by intro c hcm; simp [initScanState] at hcm)
    (by intro c hcm; simp [initScanState] at hcm)
    (by simp [initScanState])
  exact ⟨h.1, h.2.2⟩

/-- C5: within one profile's run, every candidate that survives the
pre-scoring filters (and so is the only thing ever scored or inserted)
has a company matching no excluded fragment, a present dedup URL that is
not among the persisted URLs consulted by the batched existence checks,
and — under a hard remote preference — a set remote flag; moreover no
dedup URL is accepted twice within the run. -/
theorem c5_prescoring_filters (filters : SearchFilter) (persisted : List String)
    (rid uid : String) (jls : List (List SerpApiJob)) :
    (∀ c ∈ (processQueries filters persisted rid uid jls).candidates,
        (∀ exc ∈ filters.excluded_companies,
            jsIncludes c.normalized.company.toLower exc.toLower = false) ∧
        (∃ u, c.normalized.url = some u ∧ u ∉ persisted) ∧
        (filters.remote_preference = "remote" → c.normalized.is_remote = true)) ∧
    ((processQueries filters persisted rid uid jls).candidates.map
        (fun c => c.normalized.url)).Nodup := by
  have h := processQueries_sound filters persisted rid uid jls
  exact ⟨fun c hcm => h.1 c hcm, h.2⟩

/-- Witness for C5: with `https://old.example/apply` already persisted,
the already-known listing is dropped while the fresh listing survives
with a non-persisted URL. -/
theorem c5_prescoring_filters_witness :
    ({ normalized := normalizeJob jobWithApply "r1", resumeUserId := "u1" } : Candidate) ∈
      (processQueries filtersPlain ["https://old.example/apply"] "r1" "u1"
        [[jobOldUrl, jobWithApply]]).candidates ∧
    ((∀ exc ∈ filtersPlain.excluded_companies,
        jsIncludes (normalizeJob jobWithApply "r1").company.toLower exc.toLower = false) ∧
      (∃ u, (normalizeJob jobWithApply "r1").url = some u ∧
        u ∉ ["https://old.example/apply"]) ∧
      (filtersPlain.remote_preference = "remote" →
        (normalizeJob jobWithApply "r1").is_remote = true)) :=
  ⟨by decide,
   (c5_prescoring_filters filtersPlain ["https://old.example/apply"] "r1" "u1"
      [[jobOldUrl, jobWithApply]]).1
     { normalized := normalizeJob jobWithApply "r1", resumeUserId := "u1" }
     (by decide)⟩

/-- C8: the dedup URL of a normalized listing is the first apply
option's link when one is present, else the share link when present,
else null — and no candidate with a null dedup URL ever reaches the
scorer's candidate list. -/
theorem c8_normalize_url (rid : String) :
    (∀ (job : SerpApiJob) (a : ApplyOption),
        job.apply_options.head? = some a → a.link ≠ "" →
        (normalizeJob job rid).url = some a.link) ∧
    (∀ (job : SerpApiJob) (s : String),
        job.apply_options = [] → job.share_link = some s → s ≠ "" →
        (normalizeJob job rid).url = some s) ∧
    (∀ job : SerpApiJob, job.apply_options = [] → job.share_link = none →
        (normalizeJob job rid).url = none) ∧
    (∀ (filters : SearchFilter) (persisted : List String) (rid2 uid : String)
        (jls : List (List SerpApiJob)),
        ∀ c ∈ (processQueries filters persisted rid2 uid jls).candidates,
          c.normalized.url ≠ none) := by
  refine ⟨?_, ?_, ?_, ?_⟩
  · intro job a ha hne
    simp [normalizeJob, ha, truthyS, hne]
  · intro job s ha hs hne
    simp [normalizeJob, ha, hs, truthyS, hne]
  · intro job ha hs
    simp [normalizeJob, ha, hs, truthyS]
  · intro filters persisted rid2 uid jls c hcm
    obtain ⟨-, ⟨u, hu, -⟩, -⟩ :=
      (processQueries_sound filters persisted rid2 uid jls).1 c hcm
    simp [hu]

/-- Witness for C8 on the three concrete link shapes, plus the scorer
exclusion at a concrete accepted candidate. -/
theorem c8_normalize_url_witness :
    (normalizeJob jobWithApply "r1").url = some "https://acme.com/apply" ∧
    (normalizeJob jobShareOnly "r1").url = some "https://google.com/jobs/share" ∧
    (normalizeJob jobNoLinks "r1").url = none ∧
    ({ normalized := normalizeJob jobWithApply "r1", resumeUserId := "u1" } :
        Candidate).normalized.url ≠ none :=
  ⟨(c8_normalize_url "r1").1 jobWithApply
      { title := "Company Site", link := "https://acme.com/apply" } rfl (by decide),
   (c8_normalize_url "r1").2.1 jobShareOnly "https://google.com/jobs/share" rfl rfl
      (by decide),
   (c8_normalize_url "r1").2.2.1 jobNoLinks rfl rfl,
   (c8_normalize_url "r1").2.2.2 filtersPlain [] "r1" "u1" [[jobWithApply]]
      { normalized := normalizeJob jobWithApply "r1", resumeUserId := "u1" }
      (by decide)⟩

/-! ## External search client: pagination -/

theorem exceptMap_eq_ok {ε α β : Type} {f : α → β} {x : Except ε α} {y : β} :
    x.map f = .ok y ↔ ∃ a, x = .ok a ∧ y = f a := by
  cases x <;> simp [Except.map, eq_comm]

/-- Soundness of the pagination loop: at most `n` requests are made;
the first request carries the starting token; a successful result is
the concatenation of the fetched pages' `jobs_results`; every follow-up
request carries exactly the previous response's next-page token and
only happens after a non-empty page with a token; and a successful run
that stopped before the page budget stopped on an empty page or a
missing token. -/
theorem searchLoop_sound (service : SerpParams → Option String → FetchOutcome)
    (params : SerpParams) :
    ∀ (n : Nat) (tok : Option String),
      (searchLoop service params n tok).2.length ≤ n ∧
      (1 ≤ n → (searchLoop service params n tok).2[0]? = some tok) ∧
      (∀ l, (searchLoop service params n tok).1 = .ok l →
          l = ((searchLoop service params n tok).2.map
                (fun t => pageJobs (service params t))).flatten) ∧
      (∀ i t', (searchLoop service params n tok).2[i + 1]? = some t' →
          pageJobs (service params
            ((searchLoop service params n tok).2[i]?.getD none)) ≠ [] ∧
          ∃ t, pageNextToken (service params
                ((searchLoop service params n tok).2[i]?.getD none)) = some t ∧
            t' = some t) ∧
      (∀ l, (searchLoop service params n tok).1 = .ok l →
          (searchLoop service params n tok).2.length < n →
          pageJobs (service params
            ((searchLoop service params n tok).2.getLast?.getD none)) = [] ∨
          pageNextToken (service params
            ((searchLoop service params n tok).2.getLast?.getD none)) = none) := by
  intro n
  induction n with
  | zero =>
      intro tok
      refine ⟨by simp [searchLoop], fun h => absurd h (by omega), ?_, ?_, ?_⟩
      · intro l hl
        simp only [searchLoop] at hl ⊢
        simp only [Except.ok.injEq] at hl
        subst hl
        simp
      · intro i t' h
        simp [searchLoop] at h
      · intro l _ hlen
        simp [searchLoop] at hlen
  | succ n ihn =>
      intro tok
      cases hsvc : service params tok with
      | httpFailure status body =>
          have hout : searchLoop service params (n + 1) tok =
              (.error ("SerpAPI request failed: " ++ toString status ++ " - " ++ body),
               [tok]) := by
            simp [searchLoop, hsvc]
          rw [hout]
          refine ⟨by simp, fun _ => rfl, ?_, ?_, ?_⟩
          · intro l hl
            simp at hl
          · intro i t' h
            simp at h
          · intro l hl
            simp at hl
      | success resp =>
          cases herr : resp.error with
          | some e =>
              have hout : searchLoop service params (n + 1) tok =
                  (.error ("SerpAPI error: " ++ e), [tok]) := by
                simp [searchLoop, hsvc, herr]
              rw [hout]
              refine ⟨by simp, fun _ => rfl, ?_, ?_, ?_⟩
              · intro l hl
                simp at hl
              · intro i t' h
                simp at h
              · intro l hl
                simp at hl
          | none =>
              have hpj : pageJobs (service params tok) = resp.jobs_results.getD [] := by
                simp [pageJobs, hsvc, herr]
              have hpt : pageNextToken (service params tok) = truthyS resp.next_page_token := by
                simp [pageNextToken, hsvc]
              cases htok : truthyS resp.next_page_token with
              | none =>
                  have hout : searchLoop service params (n + 1) tok =
                      (.ok (resp.jobs_results.getD []), [tok]) := by
                    simp [searchLoop, hsvc, herr, htok]
                  rw [hout]
                  refine ⟨by simp, fun _ => rfl, ?_, ?_, ?_⟩
                  · intro l hl
                    simp only [Except.ok.injEq] at hl
                    subst hl
                    simp [hpj]
                  · intro i t' h
                    simp at h
                  · intro l _ _
                    right
                    simpa [hpt] using htok
              | some t =>
                  by_cases hj : (resp.jobs_results.getD []).length = 0
                  · have hnil : resp.jobs_results.getD [] = [] :=
                      List.eq_nil_of_length_eq_zero hj
                    have hout : searchLoop service params (n + 1) tok =
                        (.ok (resp.jobs_results.getD []), [tok]) := by
                      simp [searchLoop, hsvc, herr, htok, hj]
                    rw [hout]
                    refine ⟨by simp, fun _ => rfl, ?_, ?_, ?_⟩
                    · intro l hl
                      simp only [Except.ok.injEq] at hl
                      subst hl
                      simp [hpj]
                    · intro i t' h
                      simp at h
                    · intro l _ _
                      left
                      simp [hpj, hnil]
                  · have hout : searchLoop service params (n + 1) tok =
                        ((searchLoop service params n (some t)).1.map
                          (fun l => resp.jobs_results.getD [] ++ l),
                         tok :: (searchLoop service params n (some t)).2) := by
                      simp [searchLoop, hsvc, herr, htok, hj]
                    obtain ⟨ih1, ih2, ih3, ih4, ih5⟩ := ihn (some t)
                    rw [hout]
                    refine ⟨by simpa using ih1, fun _ => by simp, ?_, ?_, ?_⟩
                    · intro l hl
                      simp only [] at hl
                      obtain ⟨l', hl', rfl⟩ := exceptMap_eq_ok.mp hl
                      rw [ih3 l' hl']
                      simp [hpj]
                    · intro i t' h
                      cases i with
                      | zero =>
                          simp only [List.getElem?_cons_succ] at h
                          have hne : (searchLoop service params n (some t)).2 ≠ [] := by
                            intro hemp
                            rw [hemp] at h
                            simp at h
                          have hn1 : 1 ≤ n := by
                            by_contra hn0
                            have : n = 0 := by omega
                            subst this
                            exact hne (by simp [searchLoop])
                          have hhead := ih2 hn1
                          rw [h] at hhead
                          simp only [List.getElem?_cons_zero, Option.getD_some,
                            Option.some_inj] at hhead ⊢
                          refine ⟨by rw [hpj]; intro hc; exact hj (by rw [hc]; rfl),
                            t, by rw [hpt]; exact htok, hhead⟩
                      | succ i =>
                          simp only [List.getElem?_cons_succ] at h ⊢
                          exact ih4 i t' h
                    · intro l hl hlen
                      obtain ⟨l', hl', rfl⟩ := exceptMap_eq_ok.mp hl
                      simp only [List.length_cons] at hlen
                      have hlen' : (searchLoop service params n (some t)).2.length < n := by
                        omega
                      have hn1 : 1 ≤ n := by omega
                      have hne : (searchLoop service params n (some t)).2 ≠ [] := by
                        intro hemp
                        have := ih2 hn1
                        rw [hemp] at this
                        simp at this
                      cases hr2 : (searchLoop service params n (some t)).2 with
                      | nil => exact absurd hr2 hne
                      | cons c cs =>
                          have hlast := ih5 l' hl' hlen'
                          rw [hr2] at hlast
                          show pageJobs (service params
                              ((tok :: c :: cs).getLast?.getD none)) = [] ∨
                            pageNextToken (service params
                              ((tok :: c :: cs).getLast?.getD none)) = none
                          rw [List.getLast?_cons_cons]
                          exact hlast

/-- C4: with a configured key, `searchJobs` makes at most 3 requests,
the first without a page token; a successful result is exactly the
concatenation of the fetched pages' `jobs_results`; every follow-up
request carries the previous response's next-page token and only
happens after a non-empty page that carried a token; and stopping
before the 3-page budget (on success) means the last page was empty or
tokenless. -/
theorem c4_paginated_search (k : String) (hk : k ≠ "")
    (service : SerpParams → Option String → FetchOutcome)
    (query : String) (filters : SearchFilter) :
    (searchJobs (some k) service query filters).2.length ≤ 3 ∧
    (searchJobs (some k) service query filters).2[0]? = some none ∧
    (∀ l, (searchJobs (some k) service query filters).1 = .ok l →
        l = ((searchJobs (some k) service query filters).2.map
              (fun t => pageJobs (service (serpParamsWithKey k query filters) t))).flatten) ∧
    (∀ i t', (searchJobs (some k) service query filters).2[i + 1]? = some t' →
        pageJobs (service (serpParamsWithKey k query filters)
          ((searchJobs (some k) service query filters).2[i]?.getD none)) ≠ [] ∧
        ∃ t, pageNextToken (service (serpParamsWithKey k query filters)
              ((searchJobs (some k) service query filters).2[i]?.getD none)) = some t ∧
          t' = some t) ∧
    (∀ l, (searchJobs (some k) service query filters).1 = .ok l →
        (searchJobs (some k) service query filters).2.length < 3 →
        pageJobs (service (serpParamsWithKey k query filters)
          ((searchJobs (some k) service query filters).2.getLast?.getD none)) = [] ∨
        pageNextToken (service (serpParamsWithKey k query filters)
          ((searchJobs (some k) service query filters).2.getLast?.getD none)) = none) := by
  have hsj : searchJobs (some k) service query filters =
      searchLoop service (serpParamsWithKey k query filters) MAX_PAGES none := by
    simp [searchJobs, truthyS, hk]
  rw [hsj]
  obtain ⟨h1, h2, h3, h4, h5⟩ :=
    searchLoop_sound service (serpParamsWithKey k query filters) MAX_PAGES none
  exact ⟨h1, h2 (by norm_num [MAX_PAGES]), h3, h4, h5⟩

/-- Witness for C4 on the concrete two-page service. -/
theorem c4_paginated_search_witness :
    "key" ≠ "" ∧
    ((searchJobs (some "key") svcTwoPages "q" filtersPlain).2.length ≤ 3 ∧
      (searchJobs (some "key") svcTwoPages "q" filtersPlain).2[0]? = some none ∧
      (∀ l, (searchJobs (some "key") svcTwoPages "q" filtersPlain).1 = .ok l →
          l = ((searchJobs (some "key") svcTwoPages "q" filtersPlain).2.map
                (fun t => pageJobs (svcTwoPages (serpParamsWithKey "key" "q" filtersPlain) t))).flatten) ∧
      (∀ i t', (searchJobs (some "key") svcTwoPages "q" filtersPlain).2[i + 1]? = some t' →
          pageJobs (svcTwoPages (serpParamsWithKey "key" "q" filtersPlain)
            ((searchJobs (some "key") svcTwoPages "q" filtersPlain).2[i]?.getD none)) ≠ [] ∧
          ∃ t, pageNextToken (svcTwoPages (serpParamsWithKey "key" "q" filtersPlain)
                ((searchJobs (some "key") svcTwoPages "q" filtersPlain).2[i]?.getD none)) = some t ∧
            t' = some t) ∧
      (∀ l, (searchJobs (some "key") svcTwoPages "q" filtersPlain).1 = .ok l →
          (searchJobs (some "key") svcTwoPages "q" filtersPlain).2.length < 3 →
          pageJobs (svcTwoPages (serpParamsWithKey "key" "q" filtersPlain)
            ((searchJobs (some "key") svcTwoPages "q" filtersPlain).2.getLast?.getD none)) = [] ∨
          pageNextToken (svcTwoPages (serpParamsWithKey "key" "q" filtersPlain)
            ((searchJobs (some "key") svcTwoPages "q" filtersPlain).2.getLast?.getD none)) = none)) :=
  ⟨by decide, c4_paginated_search "key" (by decide) svcTwoPages "q" filtersPlain⟩

/-! ## Orchestrator: missing-key behaviour -/

/-- With no API key configured, every single query's search fails with
the configuration error... -/
theorem searchJobs_noKey (service : SerpParams → Option String → FetchOutcome)
    (q : String) (filters : SearchFilter) :
    (searchJobs none service q filters).1 =
      .error "SERPAPI_API_KEY is not configured" := rfl

/-- Moreover the orchestrator's per-query catch arm absorbs it, counting
one caught error and leaving the filtering state untouched. -/
theorem searchQueryStep_noKey (service : SerpParams → Option String → FetchOutcome)
    (filters : SearchFilter) (persisted : List String) (rid uid : String)
    (qacc : ScanState × Nat) (q : String) :
    searchQueryStep none service filters persisted rid uid qacc q =
      (qacc.1, qacc.2 + 1) := rfl

theorem foldl_searchQueryStep_noKey (service : SerpParams → Option String → FetchOutcome)
    (filters : SearchFilter) (persisted : List String) (rid uid : String) :
    ∀ (qs : List String) (qacc : ScanState × Nat),
      qs.foldl (searchQueryStep none service filters persisted rid uid) qacc =
        (qacc.1, qacc.2 + qs.length) := by
  intro qs
  induction qs with
  | nil => intro qacc; rfl
  | cons q qs ihq =>
      intro qacc
      rw [List.foldl_cons, searchQueryStep_noKey, ihq]
      simp only [List.length_cons, Prod.mk.injEq]
      exact ⟨by simp, by omega⟩

/-- With no API key, a resume's whole run scores and inserts nothing
and counts one caught search error per built query. -/
theorem runResume_noKey (filtersOf : String → Option SearchFilter)
    (service : SerpParams → Option String → FetchOutcome)
    (oS : Nat → SingleOutcome) (oB : Nat → Nat → BatchOutcome)
    (insertOk : NormalizedListing → MatchResult → Bool)
    (persisted : List String) (ir : Nat × ResumeRow) :
    runResume filtersOf none service oS oB insertOk persisted ir =
      (0, (buildSearchQueries ir.2.parsed_data
            ((filtersOf ir.2.id).getD (defaultFilters ir.2.id))).length) := by
  simp only [runResume]
  rw [foldl_searchQueryStep_noKey]
  simp [initScanState]

theorem foldl_runAccumStep_noKey (filtersOf : String → Option SearchFilter)
    (service : SerpParams → Option String → FetchOutcome)
    (oS : Nat → SingleOutcome) (oB : Nat → Nat → BatchOutcome)
    (insertOk : NormalizedListing → MatchResult → Bool)
    (persisted : List String) :
    ∀ (rs : List ResumeRow) (i0 : Nat) (acc : Nat × Nat),
      (List.enumFrom i0 rs).foldl
          (runAccumStep filtersOf none service oS oB insertOk persisted) acc =
        (acc.1, acc.2 + (rs.map (fun r =>
          (buildSearchQueries r.parsed_data
            ((filtersOf r.id).getD (defaultFilters r.id))).length)).sum) := by
  intro rs
  induction rs with
  | nil => intro i0 acc; simp [List.enumFrom]
  | cons r rs ihr =>
      intro i0 acc
      show (List.foldl _ _ ((i0, r) :: List.enumFrom (i0 + 1) rs)) = _
      rw [List.foldl_cons]
      have hstep : runAccumStep filtersOf none service oS oB insertOk persisted
          acc (i0, r) =
          (acc.1, acc.2 + (buildSearchQueries r.parsed_data
            ((filtersOf r.id).getD (defaultFilters r.id))).length) := by
        simp only [runAccumStep]
        rw [runResume_noKey]
        simp
      rw [hstep, ihr]
      simp only [List.map_cons, List.sum_cons, Prod.mk.injEq]
      exact ⟨by simp, by omega⟩

/-- C2 (amended): if no search-service API key is configured, every
per-query search throws the configuration error, but the orchestrator
catches it at per-query granularity exactly like upstream HTTP/API
errors: the run completes and returns a result — zero new jobs, every
resume searched, and one caught search error per built query — instead
of aborting. -/
theorem c2_missing_key_caught_per_query
    (resumes : List ResumeRow) (filtersOf : String → Option SearchFilter)
    (service : SerpParams → Option String → FetchOutcome)
    (oS : Nat → SingleOutcome) (oB : Nat → Nat → BatchOutcome)
    (insertOk : NormalizedListing → MatchResult → Bool)
    (persisted : List String) :
    executeJobSearch (.ok resumes) filtersOf none service oS oB insertOk persisted =
      .ok { new_jobs_found := 0
            resumes_searched := resumes.length
            serpapiErrors := (resumes.map (fun r =>
              (buildSearchQueries r.parsed_data
                ((filtersOf r.id).getD (defaultFilters r.id))).length)).sum } := by
  simp only [executeJobSearch]
  by_cases h0 : resumes.length = 0
  · have : resumes = [] := List.eq_nil_of_length_eq_zero h0
    subst this
    simp
  · rw [if_neg h0]
    show Except.ok _ = _
    rw [show resumes.enum = List.enumFrom 0 resumes from rfl,
      foldl_runAccumStep_noKey]
    simp

/-- C2 counterexample to the claim as stated: with no API key the
per-query search does fail with the configuration error, yet the
orchestrator run completes normally (it does not throw/abort), having
caught that error at per-query granularity. -/
theorem c2_run_completes_without_key :
    (searchJobs none svcEmpty "Engineer" filtersPlain).1 =
      .error "SERPAPI_API_KEY is not configured" ∧
    executeJobSearch (.ok [resumeRow1]) (fun _ => some filtersPlain) none svcEmpty
        (fun _ => .apiError) (fun _ _ => .apiError) (fun _ _ => true) [] =
      .ok { new_jobs_found := 0, resumes_searched := 1, serpapiErrors := 1 } :=
  ⟨rfl, rfl⟩

end Guidepost
